import Mathlib

/-!
Verification of the face-overlay application's per-frame core against its
design description. The Python sources are embedded shallowly:

* Python dicts become association lists (`List (String × _)`), looked up with
  `List.lookup` (first match, as in a Python dict whose keys are unique);
* Python machine floats are rationals `ℚ`; where rounding matters (the
  tracker's smoothing arithmetic) every operation is rounded to the nearest
  IEEE-754 binary64 value via `fl`, and `int()` is truncation toward zero
  (`pyInt`);
* fallible dictionary / list subscripts return `Except PyError _`, and the
  blanket `ApplicationUtils.handle_error` decorator (which catches every
  exception, logs it, and falls through returning `None`) becomes
  `handle_error : Except PyError α → Option α` with the logging side effects
  dropped;
* the real-valued angle math (`np.arctan2`, `np.degrees`) is modelled over `ℝ`
  via `Complex.arg`.
-/

namespace FaceOverlay

/-- Error kinds raised by the embedded Python fragments: a dictionary subscript
with a missing key (`KeyError`) and a list subscript out of range
(`IndexError`). -/
inductive PyError where
  | keyError (k : String)
  | indexError
  deriving Repr, DecidableEq

/-- Python dictionary subscript `d[k]`: the stored value, or a `KeyError`
naming the missing key. -/
def dictGet {α : Type} (d : List (String × α)) (k : String) : Except PyError α :=
  match d.lookup k with
  | some v => Except.ok v
  | none => Except.error (PyError.keyError k)

/-- Python list subscript `l[i]` for a nonnegative index. -/
def listGet {α : Type} (l : List α) (i : ℕ) : Except PyError α :=
  match l.get? i with
  | some v => Except.ok v
  | none => Except.error PyError.indexError

/-- The `ApplicationUtils.handle_error` decorator: every exception of the
wrapped body is caught (then logged and shown to the user, side effects not
modelled) and the wrapper falls through, returning Python `None`. -/
def handle_error {α : Type} : Except PyError α → Option α
  | Except.ok a => some a
  | Except.error _ => none

/-- Python `int()` applied to a rational value: truncation toward zero. -/
def pyInt (q : ℚ) : ℤ :=
  if 0 ≤ q then ⌊q⌋ else ⌈q⌉

/-- Round a rational to the nearest integer, ties to even. -/
def roundEvenInt (n : ℚ) : ℤ :=
  let k := ⌊n⌋
  if n - k < 1 / 2 then k
  else if 1 / 2 < n - k then k + 1
  else if k % 2 = 0 then k else k + 1

/-- Round a rational to the IEEE-754 binary64 value nearest to it (ties to
even): the nearest point of the grid of spacing `ulp = 2 ^ (⌊log₂ |q|⌋ - 52)`.
This is exact binary64 rounding for the normal range, which covers every value
the smoothing arithmetic can produce from pixel coordinates. -/
def fl (q : ℚ) : ℚ :=
  if q = 0 then 0
  else (roundEvenInt (q / 2 ^ (Int.log 2 |q| - 52)) : ℚ) *
    2 ^ (Int.log 2 |q| - 52)

/-- The binary64 value stored for the Python literal `0.3`. -/
def D03 : ℚ := 5404319552844595 / 2 ^ 54

/-- The binary64 result of computing `1 - 0.3` in doubles. -/
def D07 : ℚ := 6305039478318694 / 2 ^ 53

/-- Evaluation rule for `fl` once the binade of the input is known. -/
theorem fl_eval (q : ℚ) (e k : ℤ) (hq : q ≠ 0)
    (hle : (2 : ℚ) ^ e ≤ |q|) (hlt : |q| < (2 : ℚ) ^ (e + 1))
    (hk : roundEvenInt (q / 2 ^ (e - 52)) = k) :
    fl q = (k : ℚ) * 2 ^ (e - 52) := by
  have h0 : (0 : ℚ) < |q| := abs_pos.mpr hq
  have hlog : Int.log 2 |q| = e := by
    have h1 : e ≤ Int.log 2 |q| := by
      have := (Int.zpow_le_iff_le_log (b := 2) (by norm_num) h0 (x := e)).mp
      apply this
      simpa using hle
    have h2 : Int.log 2 |q| < e + 1 := by
      have := (Int.lt_zpow_iff_log_lt (b := 2) (by norm_num) h0 (x := e + 1)).mp
      apply this
      simpa using hlt
    omega
  rw [fl, if_neg hq, hlog, hk]

/-- Rounding the rational `3/10` to binary64 yields the stored `0.3`. -/
theorem F03_eval : fl (3 / 10) = D03 := by
  rw [D03]
  have h := fl_eval (3 / 10) (-2) 5404319552844595 (by norm_num)
    (by rw [abs_of_pos (by norm_num)]; norm_num)
    (by rw [abs_of_pos (by norm_num)]; norm_num)
    (by norm_num [roundEvenInt])
  rw [h]
  norm_num

/-- Computing `1 - 0.3` in binary64 yields the stored `0.7`. -/
theorem F07_eval : fl (1 - D03) = D07 := by
  rw [D03, D07]
  have h := fl_eval (1 - 5404319552844595 / 2 ^ 54) (-1) 6305039478318694
    (by norm_num)
    (by rw [abs_of_pos (by norm_num)]; norm_num)
    (by rw [abs_of_pos (by norm_num)]; norm_num)
    (by norm_num [roundEvenInt])
  rw [h]
  norm_num

/-- Rounding fixes zero. -/
theorem fl_zero : fl 0 = 0 := by simp [fl]

/-- Rounding fixes the stored `0.3` (it is representable). -/
theorem fl_D03 : fl D03 = D03 := by
  rw [D03]
  have h := fl_eval (5404319552844595 / 2 ^ 54) (-2) 5404319552844595
    (by norm_num)
    (by rw [abs_of_pos (by norm_num)]; norm_num)
    (by rw [abs_of_pos (by norm_num)]; norm_num)
    (by norm_num [roundEvenInt])
  rw [h]
  norm_num

/-- Rounding fixes the stored `0.7` (it is representable). -/
theorem fl_D07 : fl D07 = D07 := by
  rw [D07]
  have h := fl_eval (6305039478318694 / 2 ^ 53) (-1) 6305039478318694
    (by norm_num)
    (by rw [abs_of_pos (by norm_num)]; norm_num)
    (by rw [abs_of_pos (by norm_num)]; norm_num)
    (by norm_num [roundEvenInt])
  rw [h]
  norm_num

/-- Rounding fixes one. -/
theorem fl_one : fl 1 = 1 := by
  have h := fl_eval 1 0 4503599627370496 (by norm_num)
    (by norm_num) (by norm_num) (by norm_num [roundEvenInt])
  rw [h]
  norm_num

/-- Rounding fixes thirty-one. -/
theorem fl_31 : fl 31 = 31 := by
  have h := fl_eval 31 4 8725724278030336 (by norm_num)
    (by norm_num) (by norm_num) (by norm_num [roundEvenInt])
  rw [h]
  norm_num

/-- The binary64 product `31 * 0.3`, rounded down to the grid of `[8, 16)`. -/
theorem fl_31_D03 : fl (31 * D03) = 5235434566818201 / 2 ^ 49 := by
  rw [D03]
  have h := fl_eval (31 * (5404319552844595 / 2 ^ 54)) 3 5235434566818201
    (by norm_num)
    (by rw [abs_of_pos (by norm_num)]; norm_num)
    (by rw [abs_of_pos (by norm_num)]; norm_num)
    (by norm_num [roundEvenInt])
  rw [h]
  norm_num

/-- The binary64 sum `0.7 + 9.299999999999999` is `9.999999999999998`. -/
theorem fl_sum_D07 : fl (D07 + 5235434566818201 / 2 ^ 49) =
    5629499534213119 / 2 ^ 49 := by
  rw [D07]
  have h := fl_eval (6305039478318694 / 2 ^ 53 + 5235434566818201 / 2 ^ 49) 3
    5629499534213119 (by norm_num)
    (by rw [abs_of_pos (by norm_num)]; norm_num)
    (by rw [abs_of_pos (by norm_num)]; norm_num)
    (by norm_num [roundEvenInt])
  rw [h]
  norm_num

/-- Nearest-integer rounding moves a value by at most one half. -/
theorem roundEvenInt_err (n : ℚ) : |(roundEvenInt n : ℚ) - n| ≤ 1 / 2 := by
  unfold roundEvenInt
  have h0 : (⌊n⌋ : ℚ) ≤ n := Int.floor_le n
  have h1 : n < (⌊n⌋ : ℚ) + 1 := Int.lt_floor_add_one n
  by_cases hlt : n - (⌊n⌋ : ℚ) < 1 / 2
  · rw [if_pos hlt, abs_sub_le_iff]
    constructor <;> linarith
  · rw [if_neg hlt]
    by_cases hgt : 1 / 2 < n - (⌊n⌋ : ℚ)
    · rw [if_pos hgt]
      rw [abs_sub_le_iff]
      push_cast
      constructor <;> linarith
    · rw [if_neg hgt]
      have heq : n - (⌊n⌋ : ℚ) = 1 / 2 := le_antisymm (not_lt.mp hgt) (not_lt.mp hlt)
      by_cases hpar : ⌊n⌋ % 2 = 0
      · rw [if_pos hpar, abs_sub_le_iff]
        constructor <;> linarith
      · rw [if_neg hpar, abs_sub_le_iff]
        push_cast
        constructor <;> linarith

/-- Binary64 rounding has relative error at most `2⁻⁵³`. -/
theorem fl_err (q : ℚ) : |fl q - q| ≤ |q| / 2 ^ 53 := by
  by_cases hq : q = 0
  · simp [fl, hq]
  · rw [fl, if_neg hq]
    set e := Int.log 2 |q| with he
    have h0 : (0 : ℚ) < |q| := abs_pos.mpr hq
    have hu : (0 : ℚ) < 2 ^ (e - 52) := by positivity
    have hself : (2 : ℚ) ^ e ≤ |q| := by
      have := Int.zpow_log_le_self (b := 2) (by norm_num) h0
      simpa [he] using this
    have hround := roundEvenInt_err (q / 2 ^ (e - 52))
    have key : (roundEvenInt (q / 2 ^ (e - 52)) : ℚ) * 2 ^ (e - 52) - q =
        ((roundEvenInt (q / 2 ^ (e - 52)) : ℚ) - q / 2 ^ (e - 52)) *
          2 ^ (e - 52) := by
      field_simp
    rw [key, abs_mul, abs_of_pos hu]
    have step : |(roundEvenInt (q / 2 ^ (e - 52)) : ℚ) - q / 2 ^ (e - 52)| *
        2 ^ (e - 52) ≤ (1 / 2) * 2 ^ (e - 52) :=
      mul_le_mul_of_nonneg_right hround hu.le
    refine step.trans ?_
    have hz : (2 : ℚ) ^ (e - 52) = 2 ^ e / 2 ^ (52 : ℕ) := by
      rw [zpow_sub₀ (by norm_num : (2 : ℚ) ≠ 0)]
      norm_num
    have hcollapse : (1 / 2 : ℚ) * (2 ^ e / 2 ^ (52 : ℕ)) =
        2 ^ e / 2 ^ (53 : ℕ) := by
      rw [show ((2 : ℚ) ^ (53 : ℕ)) = 2 * 2 ^ (52 : ℕ) by ring]
      field_simp
    rw [hz, hcollapse]
    exact (div_le_div_iff_of_pos_right (by positivity)).mpr hself

/-- Nearest-integer rounding fixes integers. -/
theorem roundEvenInt_intCast (m : ℤ) : roundEvenInt (m : ℚ) = m := by
  simp [roundEvenInt]

/-- Binary64 rounding fixes every integer of magnitude at most `2 ^ 52` —
Python's int-to-float conversion is exact for pixel coordinates. -/
theorem fl_int_small (p : ℤ) (hp : |p| ≤ 2 ^ 52) : fl (p : ℚ) = p := by
  by_cases h0 : p = 0
  · simp [h0, fl]
  · have hq : (p : ℚ) ≠ 0 := Int.cast_ne_zero.mpr h0
    have habs : (0 : ℚ) < |(p : ℚ)| := abs_pos.mpr hq
    rw [fl, if_neg hq]
    set e := Int.log 2 |(p : ℚ)| with he
    have h1 : (1 : ℚ) ≤ |(p : ℚ)| := by
      rw [← Int.cast_abs]
      exact_mod_cast Int.one_le_abs h0
    have he0 : (0 : ℤ) ≤ e := by
      have h := (Int.zpow_le_iff_le_log (b := 2) (by norm_num) habs (x := 0)).mp
        (by simpa using h1)
      simpa [he] using h
    have he52 : e ≤ 52 := by
      have hup : (2 : ℚ) ^ e ≤ |(p : ℚ)| := by
        have := Int.zpow_log_le_self (b := 2) (by norm_num) habs
        simpa [he] using this
      have hle : |(p : ℚ)| ≤ (2 : ℚ) ^ (52 : ℤ) := by
        rw [← Int.cast_abs, show ((2 : ℚ) ^ (52 : ℤ)) = ((2 ^ 52 : ℤ) : ℚ) by norm_num]
        exact_mod_cast hp
      exact (zpow_le_zpow_iff_right₀ (by norm_num : (1 : ℚ) < 2)).mp (hup.trans hle)
    have hnn : (0 : ℤ) ≤ 52 - e := by omega
    have hcast : ((2 : ℚ)) ^ ((52 - e).toNat) = (2 : ℚ) ^ (52 - e) := by
      rw [← zpow_natCast (2 : ℚ) ((52 - e).toNat), Int.toNat_of_nonneg hnn]
    have hdiv : (p : ℚ) / 2 ^ (e - 52) = ((p * 2 ^ ((52 - e).toNat) : ℤ) : ℚ) := by
      push_cast
      rw [hcast, div_eq_iff (by positivity : ((2 : ℚ) ^ (e - 52)) ≠ 0),
        mul_assoc, ← zpow_add₀ (by norm_num : (2 : ℚ) ≠ 0)]
      norm_num
    rw [hdiv, roundEvenInt_intCast]
    push_cast
    rw [hcast, mul_assoc, ← zpow_add₀ (by norm_num : (2 : ℚ) ≠ 0)]
    norm_num

/-- `PositionTracker.smoothing_factor`: the Python literal `0.3`, i.e. the
binary64 value nearest `3/10`. -/
def smoothing_factor : ℚ := fl (3 / 10)

/-- One axis of the smoothing step of `PositionTracker.update`:
`int(prev * (1 - smoothing_factor) + new * smoothing_factor)` as the program
computes it — the integer operands converted to binary64, the subtraction,
both products and the sum each rounded to binary64, and the result truncated
toward zero by `int()`. -/
def smoothAxis (prev new : ℤ) : ℤ :=
  pyInt (fl (fl (fl (prev : ℚ) * fl (1 - smoothing_factor)) +
    fl (fl (new : ℚ) * smoothing_factor)))

/-- The stored smoothing factor is the double `0.3`. -/
theorem smoothing_factor_eq : smoothing_factor = D03 := F03_eval

/-- Both axes of the smoothing step applied to one tracked point. -/
def pointSmooth (prev new : ℤ × ℤ) : ℤ × ℤ :=
  (smoothAxis prev.1 new.1, smoothAxis prev.2 new.2)

/-- `PositionTracker.update`: iterate over the incoming positions in order;
a key absent from `prev_positions` passes through unchanged, a key present is
smoothed per axis. The returned dictionary is also the tracker's new
`prev_positions` state (the method assigns the very same dictionary). -/
def update (prev_positions new_positions : List (String × ℤ × ℤ)) :
    List (String × ℤ × ℤ) :=
  new_positions.map fun p =>
    (p.1,
      match prev_positions.lookup p.1 with
      | none => p.2
      | some prev => pointSmooth prev p.2)

/-- Looking a key up in a list transformed entrywise by a key-aware function
finds the transform of the original first hit. -/
theorem lookup_map_entry {β : Type} (g : String → β → β) (k : String) :
    ∀ l : List (String × β),
      (l.map fun p => (p.1, g p.1 p.2)).lookup k = (l.lookup k).map (g k)
  | [] => rfl
  | (a, b) :: tl => by
      by_cases h : k = a
      · simp [List.lookup, h]
      · have hb : (k == a) = false := beq_false_of_ne h
        simp [List.lookup, hb, lookup_map_entry g k tl]

/-- Lookup through `update` is lookup in the input followed by the
bootstrap-or-smooth case split. -/
theorem lookup_update (prev new : List (String × ℤ × ℤ)) (f : String) :
    (update prev new).lookup f =
      (new.lookup f).map fun pos =>
        match prev.lookup f with
        | none => pos
        | some pv => pointSmooth pv pos := by
  have h := lookup_map_entry
    (fun k v => match prev.lookup k with
      | none => v
      | some pv => pointSmooth pv v) f new
  simpa [update] using h

/-- Truncation toward zero of a value lying between two integers stays between
them (inclusively). -/
theorem pyInt_between {p n : ℤ} {q : ℚ} (hp : (p : ℚ) ≤ q) (hn : q ≤ (n : ℚ)) :
    p ≤ pyInt q ∧ pyInt q ≤ n := by
  unfold pyInt
  by_cases h : 0 ≤ q
  · rw [if_pos h]
    refine ⟨Int.le_floor.mpr hp, ?_⟩
    exact_mod_cast (Int.floor_le q).trans hn
  · rw [if_neg h]
    refine ⟨?_, Int.ceil_le.mpr hn⟩
    exact_mod_cast hp.trans (Int.le_ceil q)

set_option maxHeartbeats 1000000 in
/-- With coordinates of on-screen magnitude (at most `2 ^ 44`) and a raw value
different from the prior value, the float-computed smoothed axis stays in the
closed interval spanned by the two: the doubles carry enough precision that
the accumulated rounding error (< 1/64) cannot cross the 0.3-wide gap to
either endpoint. -/
theorem smoothAxis_between (p n : ℤ) (hne : p ≠ n)
    (hp : |p| ≤ 2 ^ 44) (hn : |n| ≤ 2 ^ 44) :
    min p n ≤ smoothAxis p n ∧ smoothAxis p n ≤ max p n := by
  have hsf : smoothing_factor = D03 := F03_eval
  have htf : fl (1 - smoothing_factor) = D07 := by rw [hsf]; exact F07_eval
  have hflp : fl (p : ℚ) = (p : ℚ) := fl_int_small p (hp.trans (by norm_num))
  have hfln : fl (n : ℚ) = (n : ℚ) := fl_int_small n (hn.trans (by norm_num))
  have hpQ : |(p : ℚ)| ≤ 2 ^ 44 := by
    rw [← Int.cast_abs]; exact_mod_cast hp
  have hnQ : |(n : ℚ)| ≤ 2 ^ 44 := by
    rw [← Int.cast_abs]; exact_mod_cast hn
  have hpQ2 := abs_le.mp hpQ
  have hnQ2 := abs_le.mp hnQ
  have hts : D07 + D03 = 1 - 1 / 2 ^ 54 := by rw [D03, D07]; norm_num
  have hsl : (29 / 100 : ℚ) ≤ D03 := by rw [D03]; norm_num
  have hsu : D03 ≤ 31 / 100 := by rw [D03]; norm_num
  have htl : (69 / 100 : ℚ) ≤ D07 := by rw [D07]; norm_num
  have htu : D07 ≤ 71 / 100 := by rw [D07]; norm_num
  have hpt : |(p : ℚ) * D07| ≤ 2 ^ 44 := by
    rw [abs_mul, abs_of_nonneg (by linarith : (0 : ℚ) ≤ D07)]
    calc |(p : ℚ)| * D07 ≤ |(p : ℚ)| * 1 :=
          mul_le_mul_of_nonneg_left (by linarith) (abs_nonneg _)
      _ = |(p : ℚ)| := mul_one _
      _ ≤ 2 ^ 44 := hpQ
  have hns : |(n : ℚ) * D03| ≤ 2 ^ 44 := by
    rw [abs_mul, abs_of_nonneg (by linarith : (0 : ℚ) ≤ D03)]
    calc |(n : ℚ)| * D03 ≤ |(n : ℚ)| * 1 :=
          mul_le_mul_of_nonneg_left (by linarith) (abs_nonneg _)
      _ = |(n : ℚ)| := mul_one _
      _ ≤ 2 ^ 44 := hnQ
  have haE : |fl ((p : ℚ) * D07) - (p : ℚ) * D07| ≤ 1 / 256 := by
    refine (fl_err _).trans ?_
    calc |(p : ℚ) * D07| / 2 ^ 53 ≤ 2 ^ 44 / 2 ^ 53 :=
          (div_le_div_iff_of_pos_right (by positivity)).mpr hpt
      _ ≤ 1 / 256 := by norm_num
  have hbE : |fl ((n : ℚ) * D03) - (n : ℚ) * D03| ≤ 1 / 256 := by
    refine (fl_err _).trans ?_
    calc |(n : ℚ) * D03| / 2 ^ 53 ≤ 2 ^ 44 / 2 ^ 53 :=
          (div_le_div_iff_of_pos_right (by positivity)).mpr hns
      _ ≤ 1 / 256 := by norm_num
  have hptT := abs_le.mp hpt
  have hnsT := abs_le.mp hns
  have haT := abs_le.mp haE
  have hbT := abs_le.mp hbE
  have hsumB : |fl ((p : ℚ) * D07) + fl ((n : ℚ) * D03)| ≤ 2 ^ 45 + 1 :=
    abs_le.mpr ⟨by linarith only [haT.1, hbT.1, hptT.1, hnsT.1],
      by linarith only [haT.2, hbT.2, hptT.2, hnsT.2]⟩
  have hvE : |fl (fl ((p : ℚ) * D07) + fl ((n : ℚ) * D03)) -
      (fl ((p : ℚ) * D07) + fl ((n : ℚ) * D03))| ≤ 1 / 128 := by
    refine (fl_err _).trans ?_
    calc |fl ((p : ℚ) * D07) + fl ((n : ℚ) * D03)| / 2 ^ 53 ≤
          (2 ^ 45 + 1) / 2 ^ 53 :=
          (div_le_div_iff_of_pos_right (by positivity)).mpr hsumB
      _ ≤ 1 / 128 := by norm_num
  have hvT := abs_le.mp hvE
  simp only [smoothAxis]
  rw [hflp, hfln, htf, hsf]
  rcases lt_or_gt_of_ne hne with hlt | hlt
  · have hpn1 : (p : ℚ) + 1 ≤ n := by exact_mod_cast Int.add_one_le_iff.mpr hlt
    have hid1 : (p : ℚ) * D07 + (n : ℚ) * D03 - p =
        -(p : ℚ) / 2 ^ 54 + D03 * ((n : ℚ) - p) := by
      linear_combination (p : ℚ) * hts
    have hid2 : (n : ℚ) - ((p : ℚ) * D07 + (n : ℚ) * D03) =
        D07 * ((n : ℚ) - p) + (n : ℚ) / 2 ^ 54 := by
      linear_combination (-(n : ℚ)) * hts
    have hge1 : D03 ≤ D03 * ((n : ℚ) - p) := by
      nlinarith [mul_nonneg (by linarith : (0 : ℚ) ≤ D03)
        (by linarith : (0 : ℚ) ≤ (n : ℚ) - (p : ℚ) - 1)]
    have hge2 : D07 ≤ D07 * ((n : ℚ) - p) := by
      nlinarith [mul_nonneg (by linarith : (0 : ℚ) ≤ D07)
        (by linarith : (0 : ℚ) ≤ (n : ℚ) - (p : ℚ) - 1)]
    have hlow : (p : ℚ) ≤ fl (fl ((p : ℚ) * D07) + fl ((n : ℚ) * D03)) := by
      linarith only [hvT.1, haT.1, hbT.1, hid1, hge1, hsl, hpQ2.2]
    have hhigh : fl (fl ((p : ℚ) * D07) + fl ((n : ℚ) * D03)) ≤ (n : ℚ) := by
      linarith only [hvT.2, haT.2, hbT.2, hid2, hge2, htl, hnQ2.1]
    rw [min_eq_left hlt.le, max_eq_right hlt.le]
    exact pyInt_between hlow hhigh
  · have hnp1 : (n : ℚ) + 1 ≤ p := by exact_mod_cast Int.add_one_le_iff.mpr hlt
    have hid3 : (p : ℚ) * D07 + (n : ℚ) * D03 - n =
        D07 * ((p : ℚ) - n) - (n : ℚ) / 2 ^ 54 := by
      linear_combination (n : ℚ) * hts
    have hid4 : (p : ℚ) - ((p : ℚ) * D07 + (n : ℚ) * D03) =
        D03 * ((p : ℚ) - n) + (p : ℚ) / 2 ^ 54 := by
      linear_combination (-(p : ℚ)) * hts
    have hge3 : D07 ≤ D07 * ((p : ℚ) - n) := by
      nlinarith [mul_nonneg (by linarith : (0 : ℚ) ≤ D07)
        (by linarith : (0 : ℚ) ≤ (p : ℚ) - (n : ℚ) - 1)]
    have hge4 : D03 ≤ D03 * ((p : ℚ) - n) := by
      nlinarith [mul_nonneg (by linarith : (0 : ℚ) ≤ D03)
        (by linarith : (0 : ℚ) ≤ (p : ℚ) - (n : ℚ) - 1)]
    have hlow : (n : ℚ) ≤ fl (fl ((p : ℚ) * D07) + fl ((n : ℚ) * D03)) := by
      linarith only [hvT.1, haT.1, hbT.1, hid3, hge3, htl, hnQ2.2]
    have hhigh : fl (fl ((p : ℚ) * D07) + fl ((n : ℚ) * D03)) ≤ (p : ℚ) := by
      linarith only [hvT.2, haT.2, hbT.2, hid4, hge4, hsl, hpQ2.1]
    rw [min_eq_right hlt.le, max_eq_left hlt.le]
    exact pyInt_between hlow hhigh

/-- The program smooths prior 1 toward raw 31 to 9: in binary64,
`1*0.7 = 0.7`, `31*0.3 = 9.299999999999999`, their sum is
`9.999999999999998`, and `int()` truncates it to 9 — not the 10 that exact
rational evaluation would give. -/
theorem smoothAxis_1_31 : smoothAxis 1 31 = 9 := by
  rw [smoothAxis, show ((1 : ℤ) : ℚ) = (1 : ℚ) by norm_num,
    show ((31 : ℤ) : ℚ) = (31 : ℚ) by norm_num, smoothing_factor_eq, F07_eval,
    fl_one, fl_31, one_mul, fl_D07, fl_31_D03, fl_sum_D07]
  norm_num [pyInt]

/-- The program smooths prior 0 toward raw 1 to 0: `0*0.7 + 1*0.3 = 0.3` in
binary64, truncated to 0. -/
theorem smoothAxis_0_1 : smoothAxis 0 1 = 0 := by
  rw [smoothAxis, show ((0 : ℤ) : ℚ) = (0 : ℚ) by norm_num,
    show ((1 : ℤ) : ℚ) = (1 : ℚ) by norm_num, smoothing_factor_eq, F07_eval,
    fl_zero, fl_one, zero_mul, fl_zero, one_mul, fl_D03, zero_add, fl_D03]
  rw [D03]
  norm_num [pyInt]

/-- C1 fails as stated: with prior smoothed value 1 and raw value 31 on an
axis, the program computes `int(1*(1-0.3) + 31*0.3)` in binary64 as
`int(9.999999999999998) = 9`, while the claimed exact expression
`prev*(1-0.3) + raw*0.3` truncated toward zero gives 10. -/
theorem C1_counterexample :
    (update [("nose", ((1 : ℤ), (1 : ℤ)))]
      [("nose", ((31 : ℤ), (31 : ℤ)))]).lookup "nose" = some (9, 9) ∧
    pyInt ((1 : ℚ) * (1 - 3 / 10) + 31 * (3 / 10)) = 10 ∧
    (9 : ℤ) ≠ 10 := by
  refine ⟨?_, by norm_num [pyInt], by decide⟩
  rw [lookup_update]
  simp [List.lookup, pointSmooth, smoothAxis_1_31]

/-- C1 amended: for every call to `PositionTracker.update` and every feature
key present in the input dictionary, the output position is the raw input
position unchanged when the tracker holds no prior smoothed value for the
key; otherwise each output axis is `prev * (1 - 0.3) + raw * 0.3` evaluated
in IEEE-754 binary64 arithmetic — the literal `0.3` being the double nearest
`3/10` and every operation rounded to nearest, ties to even — and then
truncated toward zero by `int()` (which can differ by one pixel from exact
rational evaluation). -/
theorem C1_update_bootstrap_and_float_smoothing
    (prev new : List (String × ℤ × ℤ)) (f : String) (pos : ℤ × ℤ)
    (hmem : new.lookup f = some pos) :
    (prev.lookup f = none → (update prev new).lookup f = some pos) ∧
    (∀ pv : ℤ × ℤ, prev.lookup f = some pv →
      (update prev new).lookup f =
        some (pyInt (fl (fl (fl (pv.1 : ℚ) * fl (1 - fl (3 / 10))) +
                fl (fl (pos.1 : ℚ) * fl (3 / 10)))),
              pyInt (fl (fl (fl (pv.2 : ℚ) * fl (1 - fl (3 / 10))) +
                fl (fl (pos.2 : ℚ) * fl (3 / 10)))))) := by
  constructor
  · intro hnone
    rw [lookup_update, hmem, hnone]
    rfl
  · intro pv hsome
    rw [lookup_update, hmem, hsome]
    simp [pointSmooth, smoothAxis, smoothing_factor]

/-- Witness for the amended C1 at concrete inputs: the key `nose` with prior
`(0, 10)` and raw `(10, 0)`, where a key with no prior value would pass
through. -/
theorem C1_update_bootstrap_and_float_smoothing_witness :
    ([("nose", ((10 : ℤ), (0 : ℤ)))].lookup "nose" = some ((10 : ℤ), (0 : ℤ))) ∧
    (([("nose", ((0 : ℤ), (10 : ℤ)))].lookup "nose" = none →
      (update [("nose", ((0 : ℤ), (10 : ℤ)))]
        [("nose", ((10 : ℤ), (0 : ℤ)))]).lookup "nose" = some (10, 0)) ∧
    (∀ pv : ℤ × ℤ, [("nose", ((0 : ℤ), (10 : ℤ)))].lookup "nose" = some pv →
      (update [("nose", ((0 : ℤ), (10 : ℤ)))]
        [("nose", ((10 : ℤ), (0 : ℤ)))]).lookup "nose" =
        some (pyInt (fl (fl (fl (pv.1 : ℚ) * fl (1 - fl (3 / 10))) +
                fl (fl (((10 : ℤ) : ℚ)) * fl (3 / 10)))),
              pyInt (fl (fl (fl (pv.2 : ℚ) * fl (1 - fl (3 / 10))) +
                fl (fl (((0 : ℤ) : ℚ)) * fl (3 / 10))))))) :=
  ⟨by decide,
   C1_update_bootstrap_and_float_smoothing
     [("nose", ((0 : ℤ), (10 : ℤ)))] [("nose", ((10 : ℤ), (0 : ℤ)))]
     "nose" ((10 : ℤ), (0 : ℤ)) (by decide)⟩

/-- C6 fails as stated: with prior value 0 and raw value 1 on an axis
(raw ≠ prior), the program computes `int(0*0.7 + 1*0.3) = int(0.3) = 0`,
which equals the previous smoothed value instead of lying strictly between
the previous value and the raw value. -/
theorem C6_counterexample :
    (update [("nose", ((0 : ℤ), (0 : ℤ)))]
      [("nose", ((1 : ℤ), (1 : ℤ)))]).lookup "nose" = some (0, 0) ∧
    ((1 : ℤ), (1 : ℤ)) ≠ ((0 : ℤ), (0 : ℤ)) ∧
    ¬ ((0 : ℤ) < 0 ∧ (0 : ℤ) < 1) := by
  refine ⟨?_, by decide, by decide⟩
  rw [lookup_update]
  simp [List.lookup, pointSmooth, smoothAxis_0_1]

/-- C6 amended: for every feature key with a prior smoothed value and a raw
input differing from it on an axis, with both coordinates of on-screen
magnitude (at most `2 ^ 44`), the output of `PositionTracker.update` on that
axis lies between the previous smoothed value and the new raw value
inclusively — float truncation can make it equal to an endpoint (prior 0,
raw 1 gives 0) but cannot step outside the interval. -/
theorem C6_update_weakly_between
    (prev new : List (String × ℤ × ℤ)) (f : String) (pos pv : ℤ × ℤ)
    (hmem : new.lookup f = some pos) (hprev : prev.lookup f = some pv) :
    (update prev new).lookup f = some (pointSmooth pv pos) ∧
    (pv.1 ≠ pos.1 → |pv.1| ≤ 2 ^ 44 → |pos.1| ≤ 2 ^ 44 →
      min pv.1 pos.1 ≤ (pointSmooth pv pos).1 ∧
      (pointSmooth pv pos).1 ≤ max pv.1 pos.1) ∧
    (pv.2 ≠ pos.2 → |pv.2| ≤ 2 ^ 44 → |pos.2| ≤ 2 ^ 44 →
      min pv.2 pos.2 ≤ (pointSmooth pv pos).2 ∧
      (pointSmooth pv pos).2 ≤ max pv.2 pos.2) := by
  refine ⟨?_, fun h1 h2 h3 => smoothAxis_between pv.1 pos.1 h1 h2 h3,
    fun h1 h2 h3 => smoothAxis_between pv.2 pos.2 h1 h2 h3⟩
  rw [lookup_update, hmem, hprev]
  rfl

/-- Witness for the amended C6 at concrete inputs (prior `(0, 0)`, raw
`(7, 100)`, x-axis). -/
theorem C6_update_weakly_between_witness :
    ([("nose", ((7 : ℤ), (100 : ℤ)))].lookup "nose" = some ((7 : ℤ), (100 : ℤ))) ∧
    ([("nose", ((0 : ℤ), (0 : ℤ)))].lookup "nose" = some ((0 : ℤ), (0 : ℤ))) ∧
    ((0 : ℤ) ≠ (7 : ℤ)) ∧ (|(0 : ℤ)| ≤ 2 ^ 44) ∧ (|(7 : ℤ)| ≤ 2 ^ 44) ∧
    (min (0 : ℤ) 7 ≤ (pointSmooth ((0 : ℤ), (0 : ℤ)) ((7 : ℤ), (100 : ℤ))).1 ∧
      (pointSmooth ((0 : ℤ), (0 : ℤ)) ((7 : ℤ), (100 : ℤ))).1 ≤ max (0 : ℤ) 7) :=
  ⟨by decide, by decide, by decide, by decide, by decide,
   (C6_update_weakly_between [("nose", ((0 : ℤ), (0 : ℤ)))]
     [("nose", ((7 : ℤ), (100 : ℤ)))] "nose" ((7 : ℤ), (100 : ℤ))
     ((0 : ℤ), (0 : ℤ)) (by decide) (by decide)).2.1
     (by decide) (by decide) (by decide)⟩

/-- `constants.SIZE_FACTOR`: the divisor applied to a configured size value. -/
def SIZE_FACTOR : ℤ := 100

/-- `OverlayConfig`: per-feature size values, the eye vertical-adjustment
ratio, the eye spacing value, and per-feature pixel offsets. -/
structure OverlayConfig where
  overlay_sizes : List (String × ℤ)
  eye_adjustment_ratio : ℚ
  eye_spacing_ratio : ℚ
  offsets : List (String × ℤ × ℤ)

/-- `constants.DEFAULT_CONFIG`, transcribed value for value. -/
def DEFAULT_CONFIG : OverlayConfig where
  overlay_sizes := [("right_eye", 1), ("left_eye", 1), ("nose", 1), ("mouth", 1)]
  eye_adjustment_ratio := 1 / 10
  eye_spacing_ratio := 0
  offsets := [("right_eye", (0, 0)), ("left_eye", (0, 0)),
    ("nose", (0, -20)), ("mouth", (0, 0))]

/-- `OverlayConfig.default`: `cls(**DEFAULT_CONFIG)`. -/
def OverlayConfig.default : OverlayConfig := DEFAULT_CONFIG

/-- `OverlayConfig.get_feature_scale`:
`max(0.1, base_scale * (overlay_sizes[feature] / SIZE_FACTOR))`. -/
def get_feature_scale (cfg : OverlayConfig) (feature : String)
    (base_scale : ℚ) : Except PyError ℚ := do
  let size ← dictGet cfg.overlay_sizes feature
  let scale := base_scale * ((size : ℚ) / (SIZE_FACTOR : ℚ))
  return max (1 / 10) scale

/-- C2 fails as stated: the default configuration assigns the `nose` feature a
size value of `1`, not `100`, and with `base_scale = 1` the computed feature
scale is `max(0.1, 1 * 1/100) = 0.1`, not the neutral `1`. -/
theorem C2_counterexample :
    OverlayConfig.default.overlay_sizes.lookup "nose" = some 1 ∧
    (1 : ℤ) ≠ 100 ∧
    get_feature_scale OverlayConfig.default "nose" 1 = Except.ok (1 / 10) ∧
    (1 / 10 : ℚ) ≠ 1 := by
  refine ⟨by decide, by decide, ?_, by norm_num⟩
  simp [get_feature_scale, OverlayConfig.default, DEFAULT_CONFIG, dictGet,
    List.lookup, SIZE_FACTOR, Bind.bind, Except.bind, Pure.pure, Except.pure]
  norm_num

/-- C2 amended: the default `OverlayConfig` (built from `DEFAULT_CONFIG`)
assigns every feature a size value of `1`, so that with `base_scale = 1` the
computed feature scale is clamped to `0.1` (not the neutral `1`) for every
feature. -/
theorem C2_default_sizes_are_one :
    (OverlayConfig.default.overlay_sizes.lookup "right_eye" = some 1 ∧
      get_feature_scale OverlayConfig.default "right_eye" 1 = Except.ok (1 / 10)) ∧
    (OverlayConfig.default.overlay_sizes.lookup "left_eye" = some 1 ∧
      get_feature_scale OverlayConfig.default "left_eye" 1 = Except.ok (1 / 10)) ∧
    (OverlayConfig.default.overlay_sizes.lookup "nose" = some 1 ∧
      get_feature_scale OverlayConfig.default "nose" 1 = Except.ok (1 / 10)) ∧
    (OverlayConfig.default.overlay_sizes.lookup "mouth" = some 1 ∧
      get_feature_scale OverlayConfig.default "mouth" 1 = Except.ok (1 / 10)) := by
  refine ⟨⟨by decide, ?_⟩, ⟨by decide, ?_⟩, ⟨by decide, ?_⟩, ⟨by decide, ?_⟩⟩ <;>
    · simp [get_feature_scale, OverlayConfig.default, DEFAULT_CONFIG, dictGet,
        List.lookup, SIZE_FACTOR, Bind.bind, Except.bind, Pure.pure, Except.pure]
      norm_num

/-- `np.arctan2 y x`, modelled over `ℝ` as the principal argument of the
complex number `x + y·i` (range `(-π, π]`, with `arctan2 0 x = π` for
`x < 0`, matching numpy on integer inputs). -/
noncomputable def arctan2 (y x : ℝ) : ℝ := Complex.arg ⟨x, y⟩

/-- `np.degrees`: radians to degrees. -/
noncomputable def degrees (r : ℝ) : ℝ := r * 180 / Real.pi

/-- The body of `PositionTracker.calculate_angle`: subscript the two eye
anchors (a `KeyError` if either is absent), then
`np.degrees(np.arctan2(dy, dx))` with `dx, dy = left_eye − right_eye`. -/
noncomputable def calculate_angle_body (positions : List (String × ℤ × ℤ)) :
    Except PyError ℝ := do
  let left_eye ← dictGet positions "left_eye"
  let right_eye ← dictGet positions "right_eye"
  let dx : ℤ := left_eye.1 - right_eye.1
  let dy : ℤ := left_eye.2 - right_eye.2
  return degrees (arctan2 (dy : ℝ) (dx : ℝ))

/-- `PositionTracker.calculate_angle` as the caller sees it: the body wrapped
in the `handle_error` decorator, so an exception becomes a `None` return. -/
noncomputable def calculate_angle (positions : List (String × ℤ × ℤ)) :
    Option ℝ :=
  handle_error (calculate_angle_body positions)

/-- C4: For every positions dictionary missing the key `left_eye` or the key
`right_eye`, the body of `calculate_angle` raises a `KeyError` (the
`MissingAnchor` kind), and the decorated method consequently returns `None`
rather than any angle value — the failure is observable by the caller, never a
silently produced number. -/
theorem C4_missing_eye_key_fails (ps : List (String × ℤ × ℤ))
    (h : ps.lookup "left_eye" = none ∨ ps.lookup "right_eye" = none) :
    (∃ k, calculate_angle_body ps = Except.error (PyError.keyError k)) ∧
    calculate_angle ps = none := by
  rcases hL : ps.lookup "left_eye" with _ | le
  · refine ⟨⟨"left_eye", ?_⟩, ?_⟩ <;>
      simp [calculate_angle, calculate_angle_body, dictGet, hL, handle_error,
        Bind.bind, Except.bind, Pure.pure, Except.pure]
  · have hR : ps.lookup "right_eye" = none := by
      rcases h with h | h
      · rw [hL] at h; cases h
      · exact h
    refine ⟨⟨"right_eye", ?_⟩, ?_⟩ <;>
      simp [calculate_angle, calculate_angle_body, dictGet, hL, hR, handle_error,
        Bind.bind, Except.bind, Pure.pure, Except.pure]

/-- Witness for C4: a dictionary holding only `right_eye` misses `left_eye`,
and `calculate_angle` returns `None` on it, its body a `KeyError`. -/
theorem C4_missing_eye_key_fails_witness :
    (([("right_eye", ((0 : ℤ), (0 : ℤ)))] : List (String × ℤ × ℤ)).lookup
        "left_eye" = none ∨
      ([("right_eye", ((0 : ℤ), (0 : ℤ)))] : List (String × ℤ × ℤ)).lookup
        "right_eye" = none) ∧
    ((∃ k, calculate_angle_body [("right_eye", ((0 : ℤ), (0 : ℤ)))] =
        Except.error (PyError.keyError k)) ∧
      calculate_angle [("right_eye", ((0 : ℤ), (0 : ℤ)))] = none) :=
  ⟨Or.inl (by decide),
   C4_missing_eye_key_fails [("right_eye", ((0 : ℤ), (0 : ℤ)))]
     (Or.inl (by decide))⟩

/-- The argument of a nonnegative real point on the x-axis is 0. -/
theorem arctan2_zero_nonneg {x : ℝ} (hx : 0 ≤ x) : arctan2 0 x = 0 := by
  have h1 : (⟨x, 0⟩ : ℂ) = ((x : ℝ) : ℂ) := by
    apply Complex.ext <;> simp
  rw [arctan2, h1, Complex.arg_ofReal_of_nonneg hx]

/-- The argument of a negative real point on the x-axis is π. -/
theorem arctan2_zero_neg {x : ℝ} (hx : x < 0) : arctan2 0 x = Real.pi := by
  have h1 : (⟨x, 0⟩ : ℂ) = ((x : ℝ) : ℂ) := by
    apply Complex.ext <;> simp
  rw [arctan2, h1, Complex.arg_ofReal_of_neg hx]

/-- Radian-to-degree conversion of 0 and of π. -/
theorem degrees_zero : degrees 0 = 0 := by
  simp [degrees]

/-- π converts to 180 degrees. -/
theorem degrees_pi : degrees Real.pi = 180 := by
  rw [degrees]
  field_simp

/-- Degree conversion turns a shift by π into a shift by 180. -/
theorem degrees_add_pi (t : ℝ) : degrees (t + Real.pi) = degrees t + 180 := by
  rw [degrees, degrees]
  field_simp
  ring

/-- Degree conversion turns a shift by −π into a shift by −180. -/
theorem degrees_sub_pi (t : ℝ) : degrees (t - Real.pi) = degrees t - 180 := by
  rw [degrees, degrees]
  field_simp
  ring

/-- Negating both coordinates of a nonzero point moves its argument by exactly
±π (never by a plain sign flip in general). -/
theorem arctan2_neg_neg (dx dy : ℝ) (h : ¬(dx = 0 ∧ dy = 0)) :
    arctan2 (-dy) (-dx) = arctan2 dy dx - Real.pi ∨
    arctan2 (-dy) (-dx) = arctan2 dy dx + Real.pi := by
  have hneg : (⟨-dx, -dy⟩ : ℂ) = -(⟨dx, dy⟩ : ℂ) := by
    apply Complex.ext <;> simp
  rw [arctan2, arctan2, hneg]
  rcases lt_trichotomy dy 0 with hdy | hdy | hdy
  · right
    exact Complex.arg_neg_eq_arg_add_pi_of_im_neg hdy
  · rcases lt_trichotomy dx 0 with hdx | hdx | hdx
    · left
      have h1 : (⟨dx, dy⟩ : ℂ) = ((dx : ℝ) : ℂ) := by
        apply Complex.ext <;> simp [hdy]
      rw [h1, ← Complex.ofReal_neg, Complex.arg_ofReal_of_neg hdx,
        Complex.arg_ofReal_of_nonneg (by linarith : (0 : ℝ) ≤ -dx)]
      ring
    · exact absurd ⟨hdx, hdy⟩ h
    · right
      have h1 : (⟨dx, dy⟩ : ℂ) = ((dx : ℝ) : ℂ) := by
        apply Complex.ext <;> simp [hdy]
      rw [h1, ← Complex.ofReal_neg, Complex.arg_ofReal_of_nonneg hdx.le,
        Complex.arg_ofReal_of_neg (by linarith : -dx < 0)]
      ring
  · left
    exact Complex.arg_neg_eq_arg_sub_pi_of_im_pos hdy

/-- Evaluation of `calculate_angle` on a two-entry eye dictionary. -/
theorem calculate_angle_eval (lx ly rx ry : ℤ) :
    calculate_angle [("left_eye", (lx, ly)), ("right_eye", (rx, ry))] =
      some (degrees (arctan2 ((ly : ℝ) - (ry : ℝ)) ((lx : ℝ) - (rx : ℝ)))) := by
  simp [calculate_angle, calculate_angle_body, dictGet, List.lookup,
    handle_error, Bind.bind, Except.bind, Pure.pure, Except.pure]

/-- C7 fails as stated: with `left_eye = (0, 0)` and `right_eye = (1, 0)` the
two eyes share the same y-coordinate yet `calculate_angle` returns 180 (since
`dx = −1 < 0`), not 0; and relabelling the same two points returns 0, which is
not the sign flip −180 of the original angle. -/
theorem C7_counterexample :
    calculate_angle [("left_eye", ((0 : ℤ), (0 : ℤ))),
        ("right_eye", ((1 : ℤ), (0 : ℤ)))] = some 180 ∧
    calculate_angle [("left_eye", ((1 : ℤ), (0 : ℤ))),
        ("right_eye", ((0 : ℤ), (0 : ℤ)))] = some 0 ∧
    (0 : ℝ) ≠ -180 ∧ (180 : ℝ) ≠ 0 := by
  refine ⟨?_, ?_, by norm_num, by norm_num⟩
  · rw [calculate_angle_eval]
    norm_num
    rw [arctan2_zero_neg (by norm_num), degrees_pi]
  · rw [calculate_angle_eval]
    norm_num
    rw [arctan2_zero_nonneg (by norm_num), degrees_zero]

/-- C7 amended: when both eyes share the same y-coordinate `calculate_angle`
returns 0 only when `left_eye.x ≥ right_eye.x`, and returns 180 when
`left_eye.x < right_eye.x`; and swapping which point is labeled `left_eye`
versus `right_eye` changes the returned angle by exactly ±180 degrees (not by
a sign flip) whenever the two points are distinct. -/
theorem C7_same_y_and_label_swap (lx ly rx ry : ℤ) :
    (ly = ry → rx ≤ lx →
      calculate_angle [("left_eye", (lx, ly)), ("right_eye", (rx, ry))] =
        some 0) ∧
    (ly = ry → lx < rx →
      calculate_angle [("left_eye", (lx, ly)), ("right_eye", (rx, ry))] =
        some 180) ∧
    ((lx, ly) ≠ (rx, ry) →
      ∃ a : ℝ,
        calculate_angle [("left_eye", (lx, ly)), ("right_eye", (rx, ry))] =
          some a ∧
        (calculate_angle [("left_eye", (rx, ry)), ("right_eye", (lx, ly))] =
            some (a - 180) ∨
          calculate_angle [("left_eye", (rx, ry)), ("right_eye", (lx, ly))] =
            some (a + 180))) := by
  refine ⟨?_, ?_, ?_⟩
  · intro hy hx
    rw [calculate_angle_eval, hy]
    have hd : (0 : ℝ) ≤ (lx : ℝ) - (rx : ℝ) := by
      have : (rx : ℝ) ≤ (lx : ℝ) := by exact_mod_cast hx
      linarith
    rw [sub_self, arctan2_zero_nonneg hd, degrees_zero]
  · intro hy hx
    rw [calculate_angle_eval, hy]
    have hd : (lx : ℝ) - (rx : ℝ) < 0 := by
      have : (lx : ℝ) < (rx : ℝ) := by exact_mod_cast hx
      linarith
    rw [sub_self, arctan2_zero_neg hd, degrees_pi]
  · intro hne
    refine ⟨degrees (arctan2 ((ly : ℝ) - (ry : ℝ)) ((lx : ℝ) - (rx : ℝ))),
      calculate_angle_eval lx ly rx ry, ?_⟩
    have hswap : (ry : ℝ) - (ly : ℝ) = -((ly : ℝ) - (ry : ℝ)) := by ring
    have hswap2 : (rx : ℝ) - (lx : ℝ) = -((lx : ℝ) - (rx : ℝ)) := by ring
    have hnz : ¬((lx : ℝ) - (rx : ℝ) = 0 ∧ (ly : ℝ) - (ry : ℝ) = 0) := by
      rintro ⟨h1, h2⟩
      apply hne
      have e1 : lx = rx := by exact_mod_cast sub_eq_zero.mp h1
      have e2 : ly = ry := by exact_mod_cast sub_eq_zero.mp h2
      rw [e1, e2]
    rcases arctan2_neg_neg ((lx : ℝ) - (rx : ℝ)) ((ly : ℝ) - (ry : ℝ)) hnz with
      hc | hc
    · left
      rw [calculate_angle_eval, hswap, hswap2, hc, degrees_sub_pi]
    · right
      rw [calculate_angle_eval, hswap, hswap2, hc, degrees_add_pi]

/-- Witness for the amended C7: the two distinct points `(0, 0)` and `(1, 0)`
give some angle whose relabelled counterpart differs by ±180 degrees, and the
same-y/`rx ≤ lx` branch applies to `(1, 0)` versus `(0, 0)`. -/
theorem C7_same_y_and_label_swap_witness :
    ((0 : ℤ) = (0 : ℤ)) ∧ ((0 : ℤ) ≤ (1 : ℤ)) ∧
    calculate_angle [("left_eye", ((1 : ℤ), (0 : ℤ))),
      ("right_eye", ((0 : ℤ), (0 : ℤ)))] = some 0 ∧
    (((0 : ℤ), (0 : ℤ)) ≠ ((1 : ℤ), (0 : ℤ)) ∧
      ∃ a : ℝ,
        calculate_angle [("left_eye", ((0 : ℤ), (0 : ℤ))),
          ("right_eye", ((1 : ℤ), (0 : ℤ)))] = some a ∧
        (calculate_angle [("left_eye", ((1 : ℤ), (0 : ℤ))),
            ("right_eye", ((0 : ℤ), (0 : ℤ)))] = some (a - 180) ∨
          calculate_angle [("left_eye", ((1 : ℤ), (0 : ℤ))),
            ("right_eye", ((0 : ℤ), (0 : ℤ)))] = some (a + 180))) :=
  ⟨rfl, by decide,
   (C7_same_y_and_label_swap 1 0 0 0).1 rfl (by decide),
   by decide,
   (C7_same_y_and_label_swap 0 0 1 0).2.2 (by decide)⟩

/-- One normalized detector keypoint (mediapipe `relative_keypoints` entry). -/
structure RelKeypoint where
  x : ℚ
  y : ℚ
  deriving Repr, DecidableEq

/-- A normalized detector bounding box (mediapipe `relative_bounding_box`). -/
structure RelBoundingBox where
  xmin : ℚ
  ymin : ℚ
  width : ℚ
  height : ℚ
  deriving Repr, DecidableEq

/-- One face detection as the external detector reports it. -/
structure Detection where
  relative_bounding_box : RelBoundingBox
  relative_keypoints : List RelKeypoint
  deriving Repr, DecidableEq

/-- `VideoProcessor.process_frame`: resize the frame (`cv2.resize`, an external
collaborator passed as `resize`), run the detector (its output is the
`detections` argument; mediapipe reports `None` when no face is found), mutate
the frame once per detection (`_process_detection`, passed as
`process_detection`), and return `True` together with the frame —
unconditionally, whether or not any detection occurred. -/
def process_frame {Frame : Type} (resize : Frame → Frame)
    (process_detection : Frame → Detection → Frame)
    (frame : Frame) (detections : Option (List Detection)) : Bool × Frame :=
  let f := resize frame
  match detections with
  | some ds => (true, ds.foldl process_detection f)
  | none => (true, f)

/-- C3 fails as stated: the success flag does not distinguish zero detections
from at least one detection — `process_frame` returns `True` in both cases
(here on a concrete frame, with no detection and with one detection), so the
flag cannot signal whether any detection occurred. -/
theorem C3_counterexample :
    (process_frame (fun n => n + 1) (fun f _ => 2 * f) (0 : ℕ) none).1 = true ∧
    (process_frame (fun n => n + 1) (fun f _ => 2 * f) (0 : ℕ)
      (some [⟨⟨0, 0, 0, 0⟩, []⟩])).1 = true ∧
    (process_frame (fun n => n + 1) (fun f _ => 2 * f) (0 : ℕ) none).1 =
      (process_frame (fun n => n + 1) (fun f _ => 2 * f) (0 : ℕ)
        (some [⟨⟨0, 0, 0, 0⟩, []⟩])).1 :=
  ⟨rfl, rfl, rfl⟩

/-- C3 amended: `process_frame` returns the flag `True` whenever it completes,
regardless of the number of detections (the flag signals completion, not
detection); with zero detections (the detector reporting `None` or an empty
list) the returned frame is the resized input, unmodified. -/
theorem C3_flag_always_true (Frame : Type) (resize : Frame → Frame)
    (process_detection : Frame → Detection → Frame) (frame : Frame)
    (detections : Option (List Detection)) :
    (process_frame resize process_detection frame detections).1 = true ∧
    (process_frame resize process_detection frame none).2 = resize frame ∧
    (process_frame resize process_detection frame (some [])).2 = resize frame := by
  refine ⟨?_, rfl, rfl⟩
  cases detections <;> rfl

/-- An overlay sprite's pixel grid: rows of pixel values. `cv2.flip(img, 1)`
mirrors it horizontally, i.e. reverses every row. -/
abbrev Image := List (List ℤ)

/-- `OverlayFactory.create_overlay`: for the two eye features, read
`{name}_{side}{suffix}.png` (suffix selected by the eyebrows toggle) and
return the horizontally mirrored image (`cv2.flip(image, 1)`); for every
other feature, read `{name}_{feature}.png` and return it untouched.
`cv2.imread` is an external collaborator passed as `imread`; when it yields
no image for an eye feature, `cv2.flip(None, 1)` raises and the `handle_error`
decorator turns that into a `None` result. -/
def create_overlay (imread : String → Option Image)
    (base_path name feature : String) (is_eyebrows : Bool) : Option Image :=
  if feature = "right_eye" ∨ feature = "left_eye" then
    let suffix := if is_eyebrows then "_eyebrows.png" else "_eye.png"
    let side := if feature = "right_eye" then "right" else "left"
    let path := base_path ++ "/" ++ name ++ "_" ++ side ++ suffix
    match imread path with
    | some image => some (image.map List.reverse)
    | none => none
  else
    let path := base_path ++ "/" ++ name ++ "_" ++ feature ++ ".png"
    imread path

/-- C5 fails as stated: loading the right-eye sprite from a file whose single
row is `[0, 1]` yields the mirrored row `[1, 0]` — the right-eye sprite is
horizontally mirrored too, not loaded unchanged as the claim says. -/
theorem C5_counterexample :
    create_overlay (fun _ => some [[0, 1]]) "media" "subject" "right_eye"
        false = some [[1, 0]] ∧
    some [[(1 : ℤ), 0]] ≠ some [[(0 : ℤ), 1]] := by
  exact ⟨rfl, by decide⟩

/-- C5 amended: both the left-eye and the right-eye sprites are horizontally
mirrored from their image files; the nose and mouth sprites are loaded without
mirroring. -/
theorem C5_both_eyes_mirrored (imread : String → Option Image)
    (base_path name : String) (b : Bool) :
    create_overlay imread base_path name "right_eye" false =
      Option.map (fun image => image.map List.reverse)
        (imread (base_path ++ "/" ++ name ++ "_" ++ "right" ++ "_eye.png")) ∧
    create_overlay imread base_path name "left_eye" false =
      Option.map (fun image => image.map List.reverse)
        (imread (base_path ++ "/" ++ name ++ "_" ++ "left" ++ "_eye.png")) ∧
    create_overlay imread base_path name "nose" b =
      imread (base_path ++ "/" ++ name ++ "_" ++ "nose" ++ ".png") ∧
    create_overlay imread base_path name "mouth" b =
      imread (base_path ++ "/" ++ name ++ "_" ++ "mouth" ++ ".png") := by
  refine ⟨?_, ?_, by simp [create_overlay], by simp [create_overlay]⟩
  · simp only [create_overlay]
    norm_num
    rcases h : imread (base_path ++ "/" ++ name ++ "_" ++ "right" ++ "_eye.png")
      with _ | img <;> simp [h]
  · simp only [create_overlay]
    norm_num
    rcases h : imread (base_path ++ "/" ++ name ++ "_" ++ "left" ++ "_eye.png")
      with _ | img <;> simp [h]

/-- Python's substring test `needle in hay` on character lists. -/
def containsSeq (n : List Char) : List Char → Bool
  | [] => n.isEmpty
  | l@(_ :: tl) => decide (n = l.take n.length) || containsSeq n tl

/-- Python's `'needle' in hay` for strings. -/
def strIn (needle hay : String) : Bool :=
  containsSeq needle.toList hay.toList

/-- Python dictionary assignment `d[k] = v`: overwrite in place when the key
exists, append otherwise. -/
def dictSet {α : Type} (d : List (String × α)) (k : String) (v : α) :
    List (String × α) :=
  if (d.lookup k).isSome then
    d.map fun p => if p.1 = k then (p.1, v) else p
  else
    d ++ [(k, v)]

/-- The keys of `constants.OVERLAY_FEATURES` in source order. -/
def OVERLAY_FEATURES : List (String × String) :=
  [("right_eye", "오른쪽 눈"), ("left_eye", "왼쪽 눈"), ("eyebrows", "눈썹"),
   ("nose", "코"), ("mouth", "입")]

/-- `OverlayManager.__init__`'s `show_status`: every feature of
`OVERLAY_FEATURES` enabled, then `show_status['eyebrows'] = False`. -/
def show_status_init : List (String × Bool) :=
  dictSet (OVERLAY_FEATURES.map fun p => (p.1, true)) "eyebrows" false

/-- `OverlayManager.load_overlays`: read the eyebrows flag from `show_status`
(defaulting to `False`), then create one overlay per base feature, passing
`is_eyebrows and 'eye' in feature` as the variant flag. -/
def load_overlays (imread : String → Option Image)
    (show_status : List (String × Bool)) (base_path name : String) :
    List (String × Option Image) :=
  let is_eyebrows := (show_status.lookup "eyebrows").getD false
  ["right_eye", "left_eye", "nose", "mouth"].map fun feature =>
    (feature, create_overlay imread base_path name feature
      (is_eyebrows && strIn "eye" feature))

/-- C10: at `OverlayManager` construction the show-status dictionary enables
`right_eye`, `left_eye`, `nose` and `mouth` and disables `eyebrows`; the
initial sprite load therefore passes the non-eyebrow flag (`False`) to every
`create_overlay` call, and no `eyebrows` entry exists among the loaded
overlays at all. -/
theorem C10_initial_show_status (imread : String → Option Image)
    (base_path name : String) :
    show_status_init.lookup "right_eye" = some true ∧
    show_status_init.lookup "left_eye" = some true ∧
    show_status_init.lookup "nose" = some true ∧
    show_status_init.lookup "mouth" = some true ∧
    show_status_init.lookup "eyebrows" = some false ∧
    load_overlays imread show_status_init base_path name =
      [("right_eye", create_overlay imread base_path name "right_eye" false),
       ("left_eye", create_overlay imread base_path name "left_eye" false),
       ("nose", create_overlay imread base_path name "nose" false),
       ("mouth", create_overlay imread base_path name "mouth" false)] ∧
    (load_overlays imread show_status_init base_path name).lookup "eyebrows" =
      none := by
  refine ⟨by decide, by decide, by decide, by decide, by decide, rfl, ?_⟩
  simp [load_overlays, List.lookup]

/-- A three-channel pixel buffer (BGR frame or sprite), row-major. -/
structure Mat3 where
  rows : ℕ
  cols : ℕ
  px : ℕ → ℕ → Fin 3 → ℚ

/-- A single-channel buffer (normalized alpha mask). -/
structure Mat1 where
  rows : ℕ
  cols : ℕ
  px : ℕ → ℕ → ℚ

/-- `OverlayManager._blend_overlay`: compute the destination rectangle
centered at the anchor (`int(y − h/2)` … `int(x + w/2)`), clip it to the
frame, return the frame untouched when the clipped rectangle is empty, and
otherwise alpha-blend the top-left crop of the overlay into the rectangle,
per channel and per pixel. -/
def blend_overlay (frame overlay : Mat3) (alpha : Mat1) (x y : ℤ) : Mat3 :=
  let y1 := pyInt ((y : ℚ) - (overlay.rows : ℚ) / 2)
  let y2 := pyInt ((y : ℚ) + (overlay.rows : ℚ) / 2)
  let x1 := pyInt ((x : ℚ) - (overlay.cols : ℚ) / 2)
  let x2 := pyInt ((x : ℚ) + (overlay.cols : ℚ) / 2)
  let y1 := max 0 y1
  let y2 := min (frame.rows : ℤ) y2
  let x1 := max 0 x1
  let x2 := min (frame.cols : ℤ) x2
  if y2 ≤ y1 ∨ x2 ≤ x1 then frame
  else
    { frame with
      px := fun i j c =>
        if y1 ≤ (i : ℤ) ∧ (i : ℤ) < y2 ∧ x1 ≤ (j : ℤ) ∧ (j : ℤ) < x2 then
          overlay.px ((i : ℤ) - y1).toNat ((j : ℤ) - x1).toNat c
              * alpha.px ((i : ℤ) - y1).toNat ((j : ℤ) - x1).toNat
            + frame.px i j c
              * (1 - alpha.px ((i : ℤ) - y1).toNat ((j : ℤ) - x1).toNat)
        else frame.px i j c }

/-- C8: whenever the placed sprite's destination rectangle, clipped to the
frame bounds, is empty (zero or negative width or height) — in particular
whenever the anchor puts the sprite entirely outside the frame — the blend is
a no-op and the frame is returned unchanged, every pixel intact. -/
theorem C8_empty_clip_noop (frame overlay : Mat3) (alpha : Mat1) (x y : ℤ)
    (hempty :
      min (frame.rows : ℤ) (pyInt ((y : ℚ) + (overlay.rows : ℚ) / 2)) ≤
          max 0 (pyInt ((y : ℚ) - (overlay.rows : ℚ) / 2)) ∨
        min (frame.cols : ℤ) (pyInt ((x : ℚ) + (overlay.cols : ℚ) / 2)) ≤
          max 0 (pyInt ((x : ℚ) - (overlay.cols : ℚ) / 2))) :
    blend_overlay frame overlay alpha x y = frame := by
  simp only [blend_overlay]
  rw [if_pos hempty]

/-- Witness for C8: a 2×2 sprite anchored at `(100, 100)` over a 4×4 frame is
entirely outside the frame bounds, and the blend leaves the frame unchanged. -/
theorem C8_empty_clip_noop_witness :
    (min ((4 : ℕ) : ℤ) (pyInt (((100 : ℤ) : ℚ) + ((2 : ℕ) : ℚ) / 2)) ≤
        max 0 (pyInt (((100 : ℤ) : ℚ) - ((2 : ℕ) : ℚ) / 2)) ∨
      min ((4 : ℕ) : ℤ) (pyInt (((100 : ℤ) : ℚ) + ((2 : ℕ) : ℚ) / 2)) ≤
        max 0 (pyInt (((100 : ℤ) : ℚ) - ((2 : ℕ) : ℚ) / 2))) ∧
    blend_overlay ⟨4, 4, fun _ _ _ => 0⟩ ⟨2, 2, fun _ _ _ => 1⟩
        ⟨2, 2, fun _ _ => 1⟩ 100 100 = ⟨4, 4, fun _ _ _ => 0⟩ :=
  ⟨Or.inl (by norm_num [pyInt]),
   C8_empty_clip_noop ⟨4, 4, fun _ _ _ => 0⟩ ⟨2, 2, fun _ _ _ => 1⟩
     ⟨2, 2, fun _ _ => 1⟩ 100 100 (Or.inl (by norm_num [pyInt]))⟩

/-- `update` with empty tracker state passes every position through. -/
theorem update_nil (new : List (String × ℤ × ℤ)) : update [] new = new := by
  simp [update]

/-- `VideoProcessor._calculate_positions`: unpack the four keypoints in
detector order, apply the eye spacing and the eye vertical adjustment
(`bbox_height * eye_adjustment_ratio`), add each feature's configured offset
`dx` to `x` and subtract its `dy` from `y`, and feed the resulting dictionary
through `PositionTracker.update`. -/
def calculate_positions (prev_positions : List (String × ℤ × ℤ))
    (cfg : OverlayConfig) (keypoints : List RelKeypoint) (w h : ℤ)
    (bbox_height : ℚ) : Except PyError (List (String × ℤ × ℤ)) := do
  let right_eye ← listGet keypoints 0
  let left_eye ← listGet keypoints 1
  let nose ← listGet keypoints 2
  let mouth ← listGet keypoints 3
  let eye_spacing := cfg.eye_spacing_ratio
  let eye_y_adjust := bbox_height * cfg.eye_adjustment_ratio
  let offRE ← dictGet cfg.offsets "right_eye"
  let offLE ← dictGet cfg.offsets "left_eye"
  let offN ← dictGet cfg.offsets "nose"
  let offM ← dictGet cfg.offsets "mouth"
  let positions : List (String × ℤ × ℤ) :=
    [("right_eye", (pyInt (right_eye.x * (w : ℚ) - eye_spacing) + offRE.1,
                    pyInt (right_eye.y * (h : ℚ) - eye_y_adjust) - offRE.2)),
     ("left_eye", (pyInt (left_eye.x * (w : ℚ) + eye_spacing) + offLE.1,
                   pyInt (left_eye.y * (h : ℚ) - eye_y_adjust) - offLE.2)),
     ("nose", (pyInt (nose.x * (w : ℚ)) + offN.1,
               pyInt (nose.y * (h : ℚ)) - offN.2)),
     ("mouth", (pyInt (mouth.x * (w : ℚ)) + offM.1,
                pyInt (mouth.y * (h : ℚ)) - offM.2))]
  return update prev_positions positions

/-- C9: every feature's configured `(dx, dy)` offset is applied asymmetrically
by the anchor computation — `dx` is added to the x coordinate while `dy` is
subtracted from the y coordinate — and with the default configuration the nose
offset `(0, −20)` therefore shifts the nose anchor to `y + 20`, twenty pixels
down the frame. -/
theorem C9_offset_asymmetry (prev : List (String × ℤ × ℤ))
    (cfg : OverlayConfig) (rk lk nk mk : RelKeypoint) (w h : ℤ) (bh : ℚ)
    (dRE dLE dN dM : ℤ × ℤ)
    (hRE : cfg.offsets.lookup "right_eye" = some dRE)
    (hLE : cfg.offsets.lookup "left_eye" = some dLE)
    (hN : cfg.offsets.lookup "nose" = some dN)
    (hM : cfg.offsets.lookup "mouth" = some dM) :
    calculate_positions prev cfg [rk, lk, nk, mk] w h bh =
      Except.ok (update prev
        [("right_eye",
          (pyInt (rk.x * (w : ℚ) - cfg.eye_spacing_ratio) + dRE.1,
           pyInt (rk.y * (h : ℚ) - bh * cfg.eye_adjustment_ratio) - dRE.2)),
         ("left_eye",
          (pyInt (lk.x * (w : ℚ) + cfg.eye_spacing_ratio) + dLE.1,
           pyInt (lk.y * (h : ℚ) - bh * cfg.eye_adjustment_ratio) - dLE.2)),
         ("nose",
          (pyInt (nk.x * (w : ℚ)) + dN.1, pyInt (nk.y * (h : ℚ)) - dN.2)),
         ("mouth",
          (pyInt (mk.x * (w : ℚ)) + dM.1, pyInt (mk.y * (h : ℚ)) - dM.2))]) ∧
    (∃ ps, calculate_positions [] OverlayConfig.default [rk, lk, nk, mk]
        w h bh = Except.ok ps ∧
      ps.lookup "nose" =
        some (pyInt (nk.x * (w : ℚ)), pyInt (nk.y * (h : ℚ)) + 20)) := by
  constructor
  · simp [calculate_positions, listGet, dictGet, hRE, hLE, hN, hM,
      Bind.bind, Except.bind, Pure.pure, Except.pure]
  · refine ⟨update []
      [("right_eye",
        (pyInt (rk.x * (w : ℚ) - OverlayConfig.default.eye_spacing_ratio) + 0,
         pyInt (rk.y * (h : ℚ) -
           bh * OverlayConfig.default.eye_adjustment_ratio) - 0)),
       ("left_eye",
        (pyInt (lk.x * (w : ℚ) + OverlayConfig.default.eye_spacing_ratio) + 0,
         pyInt (lk.y * (h : ℚ) -
           bh * OverlayConfig.default.eye_adjustment_ratio) - 0)),
       ("nose",
        (pyInt (nk.x * (w : ℚ)) + 0, pyInt (nk.y * (h : ℚ)) - (-20))),
       ("mouth",
        (pyInt (mk.x * (w : ℚ)) + 0, pyInt (mk.y * (h : ℚ)) - 0))], ?_, ?_⟩
    · simp [calculate_positions, listGet, dictGet, OverlayConfig.default,
        DEFAULT_CONFIG, List.lookup, Bind.bind, Except.bind, Pure.pure,
        Except.pure]
    · rw [update_nil]
      simp [List.lookup]

/-- Witness for C9: with the default configuration, an empty tracker state and
keypoints placing the nose at normalized `(1/2, 1/2)` on a 640×640 frame, the
nose anchor lands at `y = int(320) + 20`, twenty pixels below the keypoint. -/
theorem C9_offset_asymmetry_witness :
    OverlayConfig.default.offsets.lookup "right_eye" = some (0, 0) ∧
    OverlayConfig.default.offsets.lookup "left_eye" = some (0, 0) ∧
    OverlayConfig.default.offsets.lookup "nose" = some (0, -20) ∧
    OverlayConfig.default.offsets.lookup "mouth" = some (0, 0) ∧
    (∃ ps, calculate_positions [] OverlayConfig.default
        [⟨0, 0⟩, ⟨1, 0⟩, ⟨1/2, 1/2⟩, ⟨1/2, 3/4⟩] 640 640 100 = Except.ok ps ∧
      ps.lookup "nose" =
        some (pyInt ((1/2 : ℚ) * ((640 : ℤ) : ℚ)),
          pyInt ((1/2 : ℚ) * ((640 : ℤ) : ℚ)) + 20)) :=
  ⟨by decide, by decide, by decide, by decide,
   (C9_offset_asymmetry [] OverlayConfig.default ⟨0, 0⟩ ⟨1, 0⟩ ⟨1/2, 1/2⟩
     ⟨1/2, 3/4⟩ 640 640 100 (0, 0) (0, 0) (0, -20) (0, 0)
     (by decide) (by decide) (by decide) (by decide)).2⟩

end FaceOverlay
